import Mathlib

/-!
Verification of the state-synchronization subsystem of the todo-app
repository (CrowderSoup/todo-app): the kanban snapshot model
(database/models.go), the merge engine `mergeKanbanData` (both the
copy in package handlers, src/handlers/data.go, and the copy in
package main, src/handlers.go), the connection hub's broadcast loop
(`Hub.Broadcast` / `Hub.Run`), and the `SyncData` endpoint's
merge-save-broadcast control flow.

Conventions of the embedding:
- Go slices become `List`; `*string` becomes `Option String`.
- A Go `map[string]Column` built by insertion is modelled as an
  association list where inserting an existing key overwrites its value
  in place; iteration order is thus first-insertion key order with
  last-written values (a deterministic refinement of Go's unspecified
  map iteration order).
- A Go `map[string]bool` used only for membership tests becomes a
  `List String` with decidable membership.
- A buffered channel of capacity n becomes a `List` paired with the
  capacity; the `select`/`default` non-blocking send succeeds exactly
  when the list is shorter than the capacity.
- JSON marshalling/unmarshalling of a `WebSocketMessage` between
  `Hub.Broadcast` and `Hub.Run` round-trips, so the hub's channel is
  modelled as carrying the message value itself.
-/

namespace TodoApp

/-- Column, from database/models.go: id, title, order, and the
deleted/hidden tombstone flags. -/
structure Column where
  ID : String
  Title : String
  Order : Int
  Deleted : Bool
  Hidden : Bool
deriving DecidableEq, Repr

/-- Task, from database/models.go: id, title, description, dueDate,
optional priority, optional columnId, and the tombstone flags. -/
structure Task where
  ID : String
  Title : String
  Description : String
  DueDate : String
  Priority : Option String
  ColumnID : Option String
  Deleted : Bool
  Hidden : Bool
deriving DecidableEq, Repr

/-- KanbanData, from database/models.go: columns, tasks, the legacy
unassignedTasks list kept for backward compatibility, and the
unassignedCollapsed UI preference. -/
structure KanbanData where
  Columns : List Column
  Tasks : List Task
  UnassignedTasks : List Task
  UnassignedCollapsed : Bool
deriving DecidableEq, Repr

/-- Inserting into the column map (`serverColumns[col.ID] = col`):
overwrites the value of an existing key in place, appends a new key. -/
def insertCol (m : List (String × Column)) (k : String) (v : Column) :
    List (String × Column) :=
  match m with
  | [] => [(k, v)]
  | p :: rest => if p.1 = k then (k, v) :: rest else p :: insertCol rest k v

/-- Reading the column map (`col, exists := m[k]`). -/
def lookupCol (m : List (String × Column)) (k : String) : Option Column :=
  match m with
  | [] => none
  | p :: rest => if p.1 = k then some p.2 else lookupCol rest k

/-- The `for _, col := range cols { m[col.ID] = col }` loops of
mergeKanbanData that populate serverColumns / clientColumns. -/
def buildColMap (cols : List Column) : List (String × Column) :=
  cols.foldl (fun m col => insertCol m col.ID col) []

/-- The last column of `cols` whose ID is `k`: the value the populated
Go map holds at key `k`. -/
def lastWithId (cols : List Column) (k : String) : Option Column :=
  match cols with
  | [] => none
  | c :: rest =>
    match lastWithId rest k with
    | some c' => some c'
    | none => if c.ID = k then some c else none

namespace Handlers

/-- The client-task-id set of mergeKanbanData (src/handlers/data.go,
lines 199-208): ids of the main task list, plus ids of the legacy
unassignedTasks list when that list is non-empty. -/
def allClientTaskIDs (clientData : KanbanData) : List String :=
  clientData.Tasks.map Task.ID ++
    (if clientData.UnassignedTasks.length > 0 then
      clientData.UnassignedTasks.map Task.ID
    else [])

/-- The server-task-id set of mergeKanbanData (src/handlers/data.go,
lines 188-197); computed by the source but never read afterwards. -/
def allServerTaskIDs (serverData : KanbanData) : List String :=
  serverData.Tasks.map Task.ID ++
    (if serverData.UnassignedTasks.length > 0 then
      serverData.UnassignedTasks.map Task.ID
    else [])

/-- The first normalization of mergeKanbanData (src/handlers/data.go,
lines 227-233 and 250-256): a columnId equal to the empty string is
rewritten to null. -/
def normEmptyColumnID (t : Task) : Task :=
  match t.ColumnID with
  | some v => if v = "" then { t with ColumnID := none } else t
  | none => t

/-- The legacy-list treatment of mergeKanbanData (src/handlers/data.go,
lines 240 and 264): `task.ColumnID = nil` regardless of the stored
value. -/
def forceUnassigned (t : Task) : Task :=
  { t with ColumnID := none }

/-- The final verification pass of mergeKanbanData (src/handlers/data.go,
lines 272-281): a columnId equal to "" or "unassigned" is rewritten to
null. -/
def finalNormTask (t : Task) : Task :=
  match t.ColumnID with
  | some v => if v = "" || v = "unassigned" then { t with ColumnID := none } else t
  | none => t

/-- The column part of mergeKanbanData (src/handlers/data.go, lines
210-219): all client columns first, then every entry of the server
column map whose key is absent from the client column map. -/
def mergedColumns (serverData clientData : KanbanData) : List Column :=
  clientData.Columns ++
    (((buildColMap serverData.Columns).filter
        (fun p => (lookupCol (buildColMap clientData.Columns) p.1).isNone)).map
      Prod.snd)

/-- The task assembly of mergeKanbanData (src/handlers/data.go, lines
221-269), before the final verification pass: client tasks (empty-string
columnId nulled), client legacy tasks (columnId forced null), server
tasks whose id is unknown to the client (empty-string columnId nulled),
server legacy tasks whose id is unknown to the client (columnId forced
null). -/
def mergedTasks (serverData clientData : KanbanData) : List Task :=
  clientData.Tasks.map normEmptyColumnID ++
    clientData.UnassignedTasks.map forceUnassigned ++
    ((serverData.Tasks.filter
        (fun t => decide (t.ID ∉ allClientTaskIDs clientData))).map
      normEmptyColumnID) ++
    ((serverData.UnassignedTasks.filter
        (fun t => decide (t.ID ∉ allClientTaskIDs clientData))).map
      forceUnassigned)

/-- mergeKanbanData of package handlers (src/handlers/data.go, lines
165-284). The result starts from empty column/task slices, takes the
UI preference from the client, and never populates the legacy
unassignedTasks field. -/
def mergeKanbanData (serverData clientData : KanbanData) : KanbanData :=
  { Columns := mergedColumns serverData clientData
    Tasks := (mergedTasks serverData clientData).map finalNormTask
    UnassignedTasks := []
    UnassignedCollapsed := clientData.UnassignedCollapsed }

end Handlers

/-- The empty-string/"unassigned" columnId normalization of the spec,
applied to a whole snapshot: every task's columnId equal to "" or
"unassigned" becomes absent, everything else is untouched. -/
def normalizeSnapshot (d : KanbanData) : KanbanData :=
  { d with
    Tasks := d.Tasks.map Handlers.finalNormTask
    UnassignedTasks := d.UnassignedTasks.map Handlers.finalNormTask }

/-- The ids occurring in a snapshot's task lists (main and legacy). -/
def taskIds (d : KanbanData) : List String :=
  d.Tasks.map Task.ID ++ d.UnassignedTasks.map Task.ID

/-! Facts about the column map model. -/

theorem lookup_insertCol (m : List (String × Column)) (k : String) (v : Column)
    (k' : String) :
    lookupCol (insertCol m k v) k' = if k = k' then some v else lookupCol m k' := by
  induction m with
  | nil => simp [insertCol, lookupCol]
  | cons p rest ih =>
    by_cases h : p.1 = k
    · by_cases hk : k = k'
      · simp [insertCol, lookupCol, h, hk]
      · simp [insertCol, lookupCol, h, hk]
    · by_cases hp : p.1 = k'
      · have hk : ¬k = k' := fun e => h (hp.trans e.symm)
        have hk2 : ¬k' = k := fun e => hk e.symm
        simp [insertCol, lookupCol, h, hp, hk, hk2]
      · simp [insertCol, lookupCol, h, hp, ih]

theorem lookup_foldl_insert (cols : List Column) (m : List (String × Column))
    (k : String) :
    lookupCol (cols.foldl (fun m col => insertCol m col.ID col) m) k =
      match lastWithId cols k with
      | some c => some c
      | none => lookupCol m k := by
  induction cols generalizing m with
  | nil => simp [lastWithId]
  | cons c rest ih =>
    simp only [List.foldl_cons, lastWithId]
    rw [ih]
    cases hrest : lastWithId rest k with
    | some c' => simp
    | none =>
      simp only
      rw [lookup_insertCol]
      by_cases h : c.ID = k
      · simp [h]
      · simp [h]

theorem lookup_buildColMap (cols : List Column) (k : String) :
    lookupCol (buildColMap cols) k = lastWithId cols k := by
  rw [buildColMap, lookup_foldl_insert]
  cases lastWithId cols k <;> simp [lookupCol]

theorem lastWithId_eq_none (cols : List Column) (k : String) :
    lastWithId cols k = none ↔ k ∉ cols.map Column.ID := by
  induction cols with
  | nil => simp [lastWithId]
  | cons c rest ih =>
    simp only [lastWithId, List.map_cons, List.mem_cons]
    cases hrest : lastWithId rest k with
    | some c' =>
      have hk : k ∈ rest.map Column.ID := by
        by_contra hk
        rw [← ih] at hk
        rw [hk] at hrest
        exact Option.noConfusion hrest
      simp [hk]
    | none =>
      have hk : k ∉ rest.map Column.ID := ih.mp hrest
      by_cases h : c.ID = k
      · simp [h, hk, eq_comm]
      · have h' : ¬k = c.ID := fun e => h e.symm
        simp [h, hk, h']

theorem lastWithId_mem (cols : List Column) (k : String) (c : Column)
    (h : lastWithId cols k = some c) : c ∈ cols ∧ c.ID = k := by
  induction cols with
  | nil => simp [lastWithId] at h
  | cons c0 rest ih =>
    simp only [lastWithId] at h
    cases hrest : lastWithId rest k with
    | some c' =>
      rw [hrest] at h
      injection h with h
      subst h
      exact ⟨List.mem_cons_of_mem _ (ih hrest).1, (ih hrest).2⟩
    | none =>
      rw [hrest] at h
      by_cases h0 : c0.ID = k
      · rw [if_pos h0] at h
        injection h with h
        subst h
        exact ⟨List.mem_cons_self _ _, h0⟩
      · rw [if_neg h0] at h
        exact Option.noConfusion h

theorem mem_insertCol (m : List (String × Column)) (k : String) (v : Column)
    (p : String × Column) (h : p ∈ insertCol m k v) : p = (k, v) ∨ p ∈ m := by
  induction m with
  | nil =>
    simp [insertCol] at h
    exact Or.inl h
  | cons q rest ih =>
    by_cases hq : q.1 = k
    · simp only [insertCol, if_pos hq, List.mem_cons] at h
      rcases h with h | h
      · exact Or.inl h
      · exact Or.inr (List.mem_cons_of_mem _ h)
    · simp only [insertCol, if_neg hq, List.mem_cons] at h
      rcases h with h | h
      · exact Or.inr (h ▸ List.mem_cons_self _ _)
      · rcases ih h with h' | h'
        · exact Or.inl h'
        · exact Or.inr (List.mem_cons_of_mem _ h')

theorem mem_foldl_insert (cols : List Column) (m : List (String × Column))
    (p : String × Column)
    (h : p ∈ cols.foldl (fun m col => insertCol m col.ID col) m) :
    (∃ c ∈ cols, p = (c.ID, c)) ∨ p ∈ m := by
  induction cols generalizing m with
  | nil => exact Or.inr h
  | cons c rest ih =>
    simp only [List.foldl_cons] at h
    rcases ih (insertCol m c.ID c) h with h' | h'
    · rcases h' with ⟨c', hc', he⟩
      exact Or.inl ⟨c', List.mem_cons_of_mem _ hc', he⟩
    · rcases mem_insertCol m c.ID c p h' with h'' | h''
      · exact Or.inl ⟨c, List.mem_cons_self _ _, h''⟩
      · exact Or.inr h''

theorem mem_buildColMap (cols : List Column) (p : String × Column)
    (h : p ∈ buildColMap cols) : p.2 ∈ cols ∧ p.1 = p.2.ID := by
  rcases mem_foldl_insert cols [] p h with h' | h'
  · rcases h' with ⟨c, hc, he⟩
    subst he
    exact ⟨hc, rfl⟩
  · simp at h'

theorem keys_insertCol (m : List (String × Column)) (k : String) (v : Column) :
    (insertCol m k v).map Prod.fst =
      if k ∈ m.map Prod.fst then m.map Prod.fst else m.map Prod.fst ++ [k] := by
  induction m with
  | nil => simp [insertCol]
  | cons p rest ih =>
    by_cases h : p.1 = k
    · simp [insertCol, h]
    · have h' : ¬k = p.1 := fun e => h e.symm
      by_cases hm : k ∈ rest.map Prod.fst
      · simp [insertCol, h, h', hm, ih]
      · simp [insertCol, h, h', hm, ih]

theorem nodup_keys_foldl_insert (cols : List Column) (m : List (String × Column))
    (hm : (m.map Prod.fst).Nodup) :
    (((cols.foldl (fun m col => insertCol m col.ID col) m)).map Prod.fst).Nodup := by
  induction cols generalizing m with
  | nil => exact hm
  | cons c rest ih =>
    simp only [List.foldl_cons]
    apply ih
    rw [keys_insertCol]
    by_cases h : c.ID ∈ m.map Prod.fst
    · simpa [h] using hm
    · simp only [if_neg h]
      simp [List.nodup_append, hm, h]

theorem nodup_keys_buildColMap (cols : List Column) :
    ((buildColMap cols).map Prod.fst).Nodup := by
  apply nodup_keys_foldl_insert
  simp

theorem lookup_of_mem_nodup (m : List (String × Column))
    (hm : (m.map Prod.fst).Nodup) (p : String × Column) (hp : p ∈ m) :
    lookupCol m p.1 = some p.2 := by
  induction m with
  | nil => simp at hp
  | cons q rest ih =>
    simp only [List.map_cons, List.nodup_cons] at hm
    rcases List.mem_cons.mp hp with h | h
    · subst h
      simp [lookupCol]
    · have hne : ¬q.1 = p.1 := by
        intro e
        exact hm.1 (e ▸ List.mem_map.mpr ⟨p, h, rfl⟩)
      simp only [lookupCol, if_neg hne]
      exact ih hm.2 h

theorem lookup_mem (m : List (String × Column)) (k : String) (v : Column)
    (h : lookupCol m k = some v) : (k, v) ∈ m := by
  induction m with
  | nil => simp [lookupCol] at h
  | cons q rest ih =>
    by_cases hq : q.1 = k
    · rw [lookupCol, if_pos hq] at h
      injection h with h
      subst h
      subst hq
      exact List.mem_cons_self _ _
    · rw [lookupCol, if_neg hq] at h
      exact List.mem_cons_of_mem _ (ih h)

/-! Facts about the task normalization helpers. -/

namespace Handlers

@[simp]
theorem normEmptyColumnID_ID (t : Task) : (normEmptyColumnID t).ID = t.ID := by
  cases h : t.ColumnID <;>
    simp [normEmptyColumnID, h, apply_ite Task.ID]

@[simp]
theorem normEmptyColumnID_Deleted (t : Task) :
    (normEmptyColumnID t).Deleted = t.Deleted := by
  cases h : t.ColumnID <;>
    simp [normEmptyColumnID, h, apply_ite Task.Deleted]

@[simp]
theorem finalNormTask_ID (t : Task) : (finalNormTask t).ID = t.ID := by
  cases h : t.ColumnID <;>
    simp [finalNormTask, h, apply_ite Task.ID]

@[simp]
theorem finalNormTask_Deleted (t : Task) :
    (finalNormTask t).Deleted = t.Deleted := by
  cases h : t.ColumnID <;>
    simp [finalNormTask, h, apply_ite Task.Deleted]

@[simp]
theorem forceUnassigned_ID (t : Task) : (forceUnassigned t).ID = t.ID := rfl

@[simp]
theorem forceUnassigned_Deleted (t : Task) :
    (forceUnassigned t).Deleted = t.Deleted := rfl

@[simp]
theorem finalNormTask_forceUnassigned (t : Task) :
    finalNormTask (forceUnassigned t) = forceUnassigned t := rfl

theorem finalNormTask_normEmptyColumnID (t : Task) :
    finalNormTask (normEmptyColumnID t) = finalNormTask t := by
  cases h : t.ColumnID with
  | none => simp [normEmptyColumnID, h]
  | some v =>
    by_cases hv : v = ""
    · simp [normEmptyColumnID, finalNormTask, h, hv]
    · simp [normEmptyColumnID, h, hv]

theorem finalNormTask_ColumnID_ok (t : Task) :
    (finalNormTask t).ColumnID ≠ some "" ∧
      (finalNormTask t).ColumnID ≠ some "unassigned" := by
  cases h : t.ColumnID with
  | none => simp [finalNormTask, h]
  | some v =>
    by_cases hv : v = "" || v = "unassigned"
    · simp [finalNormTask, h, hv]
    · simp only [Bool.or_eq_true, decide_eq_true_eq] at hv
      push_neg at hv
      simp [finalNormTask, h, hv.1, hv.2]

theorem allClientTaskIDs_eq_taskIds (c : KanbanData) :
    allClientTaskIDs c = taskIds c := by
  cases h : c.UnassignedTasks <;> simp [allClientTaskIDs, taskIds, h]

end Handlers

/-- Filtering a task list by id commutes with mapping an id-preserving
transformation over it. -/
theorem filter_id_map (f : Task → Task) (hf : ∀ t, (f t).ID = t.ID)
    (l : List Task) (i : String) :
    (l.map f).filter (fun t => decide (t.ID = i)) =
      (l.filter (fun t => decide (t.ID = i))).map f := by
  induction l with
  | nil => simp
  | cons t rest ih =>
    by_cases h : t.ID = i
    · simp [List.filter_cons, hf, h, ih]
    · simp [List.filter_cons, hf, h, ih]

/-! Concrete snapshots used as witnesses and counterexamples. -/

/-- A task with the given id and columnId, all other fields defaulted. -/
def sampleTask (i : String) (col : Option String) : Task :=
  { ID := i, Title := "", Description := "", DueDate := "", Priority := none,
    ColumnID := col, Deleted := false, Hidden := false }

/-- A column with the given id and title, all other fields defaulted. -/
def sampleColumn (i ti : String) : Column :=
  { ID := i, Title := ti, Order := 0, Deleted := false, Hidden := false }

/-- The empty board. -/
def emptySnapshot : KanbanData :=
  { Columns := [], Tasks := [], UnassignedTasks := [], UnassignedCollapsed := false }

/-- A snapshot still carrying a non-empty legacy unassignedTasks list. -/
def legacySnapshot : KanbanData :=
  { Columns := [], Tasks := [], UnassignedTasks := [sampleTask "u1" none],
    UnassignedCollapsed := false }

/-- A snapshot with an empty legacy list, a column and a task whose
columnId is the literal "unassigned". -/
def plainSnapshot : KanbanData :=
  { Columns := [sampleColumn "c1" "Todo"], Tasks := [sampleTask "t1" (some "unassigned")],
    UnassignedTasks := [], UnassignedCollapsed := true }

/-! ## C1: idempotence of the merge on identical snapshots -/

/-- C1 (amended): for every snapshot whose legacy unassignedTasks list is
empty, mergeKanbanData(S, S) equals S up to the empty-string/"unassigned"
columnId normalization. (A snapshot with a non-empty legacy list is not a
fixed point even modulo that normalization: the merge moves the legacy
tasks into the main task list and empties the legacy list.) -/
theorem merge_self_eq_normalize (S : KanbanData) (h : S.UnassignedTasks = []) :
    Handlers.mergeKanbanData S S = normalizeSnapshot S := by
  have hfilterCols :
      (buildColMap S.Columns).filter
          (fun p => (lookupCol (buildColMap S.Columns) p.1).isNone) = [] := by
    rw [List.filter_eq_nil_iff]
    intro p hp
    rcases mem_buildColMap _ p hp with ⟨hmem, hid⟩
    have hin : p.1 ∈ S.Columns.map Column.ID :=
      List.mem_map.mpr ⟨p.2, hmem, hid.symm⟩
    rw [lookup_buildColMap, Option.isNone_iff_eq_none]
    intro hnone
    exact (lastWithId_eq_none _ _).mp hnone hin
  have hfilterTasks :
      S.Tasks.filter
          (fun t => decide (t.ID ∉ Handlers.allClientTaskIDs S)) = [] := by
    rw [List.filter_eq_nil_iff]
    intro t ht
    simp only [Handlers.allClientTaskIDs_eq_taskIds, taskIds, List.mem_append,
      decide_eq_true_eq, not_not]
    exact Or.inl (List.mem_map.mpr ⟨t, ht, rfl⟩)
  simp only [Handlers.mergeKanbanData, Handlers.mergedColumns, Handlers.mergedTasks,
    normalizeSnapshot, h, hfilterCols, hfilterTasks, List.map_nil, List.append_nil,
    List.filter_nil, List.map_map, KanbanData.mk.injEq, true_and, and_true]
  exact List.map_congr_left fun t _ => Handlers.finalNormTask_normEmptyColumnID t

/-- C1 witness: a concrete legacy-free snapshot, applied to the theorem. -/
theorem merge_self_eq_normalize_witness :
    Handlers.mergeKanbanData plainSnapshot plainSnapshot = normalizeSnapshot plainSnapshot :=
  merge_self_eq_normalize plainSnapshot rfl

/-- C1 counterexample: a snapshot with a non-empty legacy unassignedTasks
list is not a fixed point of the merge, not even modulo the columnId
normalization: the merge moves the legacy task into the main task list. -/
theorem merge_self_legacy_not_fixed :
    Handlers.mergeKanbanData legacySnapshot legacySnapshot ≠ legacySnapshot ∧
      Handlers.mergeKanbanData legacySnapshot legacySnapshot ≠
        normalizeSnapshot legacySnapshot := by
  decide

/-! ## C4: the merged result never contains "" or "unassigned" columnIds -/

/-- C4 (confirmed): every task in the merged snapshot has a columnId that
is neither the empty string nor the literal "unassigned". -/
theorem merge_tasks_columnID_normalized (s c : KanbanData) :
    ∀ t ∈ (Handlers.mergeKanbanData s c).Tasks,
      t.ColumnID ≠ some "" ∧ t.ColumnID ≠ some "unassigned" := by
  intro t ht
  simp only [Handlers.mergeKanbanData] at ht
  rcases List.mem_map.mp ht with ⟨u, _, rfl⟩
  exact Handlers.finalNormTask_ColumnID_ok u

/-- Scenario B client: pushes a task with columnId equal to "". -/
def scenarioBClient : KanbanData :=
  { Columns := [], Tasks := [sampleTask "t2" (some "")], UnassignedTasks := [],
    UnassignedCollapsed := false }

/-- C4 witness: the task t2 of scenario B is in the merged result (with
columnId null) and satisfies the property. -/
theorem merge_tasks_columnID_normalized_witness :
    (sampleTask "t2" none).ColumnID ≠ some "" ∧
      (sampleTask "t2" none).ColumnID ≠ some "unassigned" :=
  merge_tasks_columnID_normalized emptySnapshot scenarioBClient
    (sampleTask "t2" none) (by decide)

/-! ## C3: recovery of server-only tasks -/

/-- C3 (amended): a task of the server's main task list whose id occurs in
none of the client's task lists appears in the merged result unchanged up
to the columnId normalization; a task of the server's legacy
unassignedTasks list whose id occurs in none of the client's task lists
appears with its columnId forced to null (all other fields unchanged). -/
theorem server_only_tasks_recovered (s c : KanbanData) :
    (∀ t ∈ s.Tasks, t.ID ∉ taskIds c →
        Handlers.finalNormTask t ∈ (Handlers.mergeKanbanData s c).Tasks) ∧
      (∀ t ∈ s.UnassignedTasks, t.ID ∉ taskIds c →
        Handlers.forceUnassigned t ∈ (Handlers.mergeKanbanData s c).Tasks) := by
  constructor
  · intro t ht hid
    rw [← Handlers.finalNormTask_normEmptyColumnID]
    simp only [Handlers.mergeKanbanData]
    apply List.mem_map_of_mem
    simp only [Handlers.mergedTasks, List.mem_append]
    refine Or.inl (Or.inr ?_)
    apply List.mem_map_of_mem
    rw [List.mem_filter]
    refine ⟨ht, ?_⟩
    simp [Handlers.allClientTaskIDs_eq_taskIds]
    simpa [taskIds] using hid
  · intro t ht hid
    rw [← Handlers.finalNormTask_forceUnassigned]
    simp only [Handlers.mergeKanbanData]
    apply List.mem_map_of_mem
    simp only [Handlers.mergedTasks, List.mem_append]
    refine Or.inr ?_
    apply List.mem_map_of_mem
    rw [List.mem_filter]
    refine ⟨ht, ?_⟩
    simp [Handlers.allClientTaskIDs_eq_taskIds]
    simpa [taskIds] using hid

/-- A server snapshot whose legacy unassignedTasks list holds a task that
still carries a real columnId. -/
def serverLegacySnapshot : KanbanData :=
  { Columns := [], Tasks := [], UnassignedTasks := [sampleTask "t9" (some "c1")],
    UnassignedCollapsed := false }

/-- C3 counterexample: the server's legacy task t9 carries columnId "c1",
is already normalized (the normalization does not change it), its id is
absent from the (empty) client snapshot, yet the merged result does not
contain it unchanged: the merge forces its columnId to null. -/
theorem server_legacy_task_not_unchanged :
    Handlers.finalNormTask (sampleTask "t9" (some "c1")) = sampleTask "t9" (some "c1") ∧
      sampleTask "t9" (some "c1") ∈ serverLegacySnapshot.UnassignedTasks ∧
      "t9" ∉ taskIds emptySnapshot ∧
      sampleTask "t9" (some "c1") ∉
        (Handlers.mergeKanbanData serverLegacySnapshot emptySnapshot).Tasks := by
  decide

/-! ## C5: tombstone preservation -/

/-- C5 (confirmed): a task or column with deleted=true that is present in
both input snapshots is still contained in the merged snapshot (by id)
with deleted=true: the merge neither resurrects nor physically removes
such a tombstoned item. -/
theorem tombstones_preserved (s c : KanbanData) :
    (∀ t : Task, t.Deleted = true →
        (t ∈ s.Tasks ∨ t ∈ s.UnassignedTasks) →
        (t ∈ c.Tasks ∨ t ∈ c.UnassignedTasks) →
        ∃ t' ∈ (Handlers.mergeKanbanData s c).Tasks,
          t'.ID = t.ID ∧ t'.Deleted = true) ∧
      (∀ col : Column, col.Deleted = true →
        col ∈ s.Columns → col ∈ c.Columns →
        ∃ col' ∈ (Handlers.mergeKanbanData s c).Columns,
          col'.ID = col.ID ∧ col'.Deleted = true) := by
  constructor
  · intro t hdel _ hc
    rcases hc with hc | hc
    · refine ⟨Handlers.finalNormTask (Handlers.normEmptyColumnID t), ?_, by simp, by simp [hdel]⟩
      simp only [Handlers.mergeKanbanData]
      apply List.mem_map_of_mem
      simp only [Handlers.mergedTasks, List.mem_append]
      exact Or.inl (Or.inl (Or.inl (List.mem_map_of_mem _ hc)))
    · refine ⟨Handlers.finalNormTask (Handlers.forceUnassigned t), ?_, by simp, by simp [hdel]⟩
      simp only [Handlers.mergeKanbanData]
      apply List.mem_map_of_mem
      simp only [Handlers.mergedTasks, List.mem_append]
      exact Or.inl (Or.inl (Or.inr (List.mem_map_of_mem _ hc)))
  · intro col hdel _ hc
    refine ⟨col, ?_, rfl, hdel⟩
    simp only [Handlers.mergeKanbanData, Handlers.mergedColumns, List.mem_append]
    exact Or.inl hc

/-- A snapshot holding one tombstoned task and one tombstoned column. -/
def tombstoneSnapshot : KanbanData :=
  { Columns := [{ ID := "cd", Title := "gone", Order := 0, Deleted := true, Hidden := true }],
    Tasks := [{ ID := "td", Title := "", Description := "", DueDate := "", Priority := none,
                ColumnID := none, Deleted := true, Hidden := true }],
    UnassignedTasks := [], UnassignedCollapsed := false }

/-- C5 witness: the tombstoned task and column of a concrete snapshot
present on both sides survive the merge. -/
theorem tombstones_preserved_witness :
    (∃ t' ∈ (Handlers.mergeKanbanData tombstoneSnapshot tombstoneSnapshot).Tasks,
        t'.ID = "td" ∧ t'.Deleted = true) ∧
      ∃ col' ∈ (Handlers.mergeKanbanData tombstoneSnapshot tombstoneSnapshot).Columns,
        col'.ID = "cd" ∧ col'.Deleted = true :=
  ⟨(tombstones_preserved tombstoneSnapshot tombstoneSnapshot).1
      { ID := "td", Title := "", Description := "", DueDate := "", Priority := none,
        ColumnID := none, Deleted := true, Hidden := true }
      rfl (Or.inl (by decide)) (Or.inl (by decide)),
    (tombstones_preserved tombstoneSnapshot tombstoneSnapshot).2
      { ID := "cd", Title := "gone", Order := 0, Deleted := true, Hidden := true }
      rfl (by decide) (by decide)⟩

/-! ## C2: client precedence on shared ids -/

/-- C2 (amended): for an id present in both inputs, the merged snapshot's
entries at that id are exactly the client snapshot's entries at that id —
columns verbatim, tasks with only the columnId normalization applied
(main-list tasks) or the columnId forced to null (legacy-list tasks) —
and the server's entry at that id never contributes. -/
theorem merge_shared_id_entries_from_client (s c : KanbanData) (i : String) :
    (i ∈ s.Columns.map Column.ID → i ∈ c.Columns.map Column.ID →
        (Handlers.mergeKanbanData s c).Columns.filter (fun col => decide (col.ID = i)) =
          c.Columns.filter (fun col => decide (col.ID = i))) ∧
      (i ∈ taskIds s → i ∈ taskIds c →
        (Handlers.mergeKanbanData s c).Tasks.filter (fun t => decide (t.ID = i)) =
          (c.Tasks.filter (fun t => decide (t.ID = i))).map Handlers.finalNormTask ++
            (c.UnassignedTasks.filter (fun t => decide (t.ID = i))).map
              Handlers.forceUnassigned) := by
  constructor
  · intro _ hci
    simp only [Handlers.mergeKanbanData, Handlers.mergedColumns, List.filter_append]
    have hrest : (((buildColMap s.Columns).filter
        (fun p => (lookupCol (buildColMap c.Columns) p.1).isNone)).map Prod.snd).filter
          (fun col => decide (col.ID = i)) = [] := by
      rw [List.filter_eq_nil_iff]
      intro col hcol
      rcases List.mem_map.mp hcol with ⟨p, hp, rfl⟩
      rcases List.mem_filter.mp hp with ⟨hpmem, hpred⟩
      rcases mem_buildColMap _ p hpmem with ⟨_, hid⟩
      rw [lookup_buildColMap, Option.isNone_iff_eq_none] at hpred
      have hnotin := (lastWithId_eq_none _ _).mp hpred
      simp only [decide_eq_true_eq]
      intro he
      exact hnotin (by rw [← hid] at he; exact he ▸ hci)
    rw [hrest, List.append_nil]
  · intro hsi hci
    simp only [Handlers.mergeKanbanData, Handlers.mergedTasks, List.map_append,
      List.filter_append]
    have hA : ((c.Tasks.map Handlers.normEmptyColumnID).map Handlers.finalNormTask).filter
        (fun t => decide (t.ID = i)) =
          (c.Tasks.filter (fun t => decide (t.ID = i))).map Handlers.finalNormTask := by
      rw [List.map_map,
        filter_id_map (Handlers.finalNormTask ∘ Handlers.normEmptyColumnID)
          (fun t => by simp [Function.comp]) c.Tasks i]
      exact List.map_congr_left fun t _ => Handlers.finalNormTask_normEmptyColumnID t
    have hB : ((c.UnassignedTasks.map Handlers.forceUnassigned).map
        Handlers.finalNormTask).filter (fun t => decide (t.ID = i)) =
          (c.UnassignedTasks.filter (fun t => decide (t.ID = i))).map
            Handlers.forceUnassigned := by
      rw [List.map_map,
        filter_id_map (Handlers.finalNormTask ∘ Handlers.forceUnassigned)
          (fun t => by simp [Function.comp]) c.UnassignedTasks i]
      exact List.map_congr_left fun t _ => Handlers.finalNormTask_forceUnassigned t
    have hC : (((s.Tasks.filter
        (fun t => decide (t.ID ∉ Handlers.allClientTaskIDs c))).map
          Handlers.normEmptyColumnID).map Handlers.finalNormTask).filter
            (fun t => decide (t.ID = i)) = [] := by
      rw [List.filter_eq_nil_iff]
      intro a ha
      rcases List.mem_map.mp ha with ⟨b, hb, rfl⟩
      rcases List.mem_map.mp hb with ⟨u, hu, rfl⟩
      rcases List.mem_filter.mp hu with ⟨_, hupred⟩
      simp only [decide_eq_true_eq] at hupred ⊢
      rw [Handlers.allClientTaskIDs_eq_taskIds] at hupred
      simp only [Handlers.finalNormTask_ID, Handlers.normEmptyColumnID_ID]
      intro he
      exact hupred (he ▸ hci)
    have hD : (((s.UnassignedTasks.filter
        (fun t => decide (t.ID ∉ Handlers.allClientTaskIDs c))).map
          Handlers.forceUnassigned).map Handlers.finalNormTask).filter
            (fun t => decide (t.ID = i)) = [] := by
      rw [List.filter_eq_nil_iff]
      intro a ha
      rcases List.mem_map.mp ha with ⟨b, hb, rfl⟩
      rcases List.mem_map.mp hb with ⟨u, hu, rfl⟩
      rcases List.mem_filter.mp hu with ⟨_, hupred⟩
      simp only [decide_eq_true_eq] at hupred ⊢
      rw [Handlers.allClientTaskIDs_eq_taskIds] at hupred
      simp only [Handlers.finalNormTask_ID, Handlers.forceUnassigned_ID]
      intro he
      exact hupred (he ▸ hci)
    rw [hA, hB, hC, hD, List.append_nil, List.append_nil]

/-- A server snapshot holding task t1 assigned to column c9. -/
def serverT1 : KanbanData :=
  { Columns := [], Tasks := [sampleTask "t1" (some "c9")], UnassignedTasks := [],
    UnassignedCollapsed := false }

/-- A client snapshot holding task t1 with columnId "". -/
def clientT1Empty : KanbanData :=
  { Columns := [], Tasks := [sampleTask "t1" (some "")], UnassignedTasks := [],
    UnassignedCollapsed := false }

/-- C2 counterexample: id t1 is present in both inputs, yet the merged
snapshot does not contain the client's entry with all field values taken
wholesale from the client: the client's columnId "" is rewritten to null
by the merge, so the client's entry as-is is absent from the result. -/
theorem client_entry_not_wholesale :
    "t1" ∈ taskIds serverT1 ∧ "t1" ∈ taskIds clientT1Empty ∧
      sampleTask "t1" (some "") ∈ clientT1Empty.Tasks ∧
      sampleTask "t1" (some "") ∉
        (Handlers.mergeKanbanData serverT1 clientT1Empty).Tasks := by
  decide

/-! ## C6: column reconciliation -/

/-- C6 (amended): the merged column list is every client column verbatim
(as a prefix, in the client's order), followed by, for each distinct
server column id absent from the client, exactly one column: the last
column of the server's list bearing that id (order of the trailing part
given by the column-map iteration; a server id occurring several times
contributes only its last occurrence, not all of them). -/
theorem merged_columns_client_first (s c : KanbanData) :
    (Handlers.mergeKanbanData s c).Columns.take c.Columns.length = c.Columns ∧
      (∀ col ∈ (Handlers.mergeKanbanData s c).Columns.drop c.Columns.length,
        col ∈ s.Columns ∧ col.ID ∉ c.Columns.map Column.ID ∧
          lastWithId s.Columns col.ID = some col) ∧
      (((Handlers.mergeKanbanData s c).Columns.drop c.Columns.length).map
        Column.ID).Nodup ∧
      (∀ col ∈ s.Columns, col.ID ∉ c.Columns.map Column.ID →
        col.ID ∈ ((Handlers.mergeKanbanData s c).Columns.drop c.Columns.length).map
          Column.ID) := by
  have hC : (Handlers.mergeKanbanData s c).Columns =
      c.Columns ++ (((buildColMap s.Columns).filter
        (fun p => (lookupCol (buildColMap c.Columns) p.1).isNone)).map Prod.snd) := rfl
  rw [hC, List.take_left, List.drop_left]
  refine ⟨rfl, ?_, ?_, ?_⟩
  · intro col hcol
    rcases List.mem_map.mp hcol with ⟨p, hp, rfl⟩
    rcases List.mem_filter.mp hp with ⟨hpmem, hpred⟩
    rcases mem_buildColMap _ p hpmem with ⟨hmem, hid⟩
    rw [lookup_buildColMap, Option.isNone_iff_eq_none] at hpred
    refine ⟨hmem, ?_, ?_⟩
    · rw [← hid]
      exact (lastWithId_eq_none _ _).mp hpred
    · rw [← hid, ← lookup_buildColMap]
      exact lookup_of_mem_nodup _ (nodup_keys_buildColMap s.Columns) p hpmem
  · have heq : (((buildColMap s.Columns).filter
        (fun p => (lookupCol (buildColMap c.Columns) p.1).isNone)).map Prod.snd).map
          Column.ID =
        ((buildColMap s.Columns).filter
          (fun p => (lookupCol (buildColMap c.Columns) p.1).isNone)).map Prod.fst := by
      rw [List.map_map]
      refine List.map_congr_left fun p hp => ?_
      rcases List.mem_filter.mp hp with ⟨hpmem, _⟩
      exact (mem_buildColMap _ p hpmem).2.symm
    rw [heq]
    exact ((List.filter_sublist _).map Prod.fst).nodup (nodup_keys_buildColMap s.Columns)
  · intro col hcol hnotin
    have hlast : lastWithId s.Columns col.ID ≠ none := by
      rw [Ne, lastWithId_eq_none]
      intro hn
      exact hn (List.mem_map.mpr ⟨col, hcol, rfl⟩)
    rcases Option.ne_none_iff_exists'.mp hlast with ⟨c'', hc''⟩
    have hpair : (col.ID, c'') ∈ buildColMap s.Columns := by
      apply lookup_mem
      rw [lookup_buildColMap]
      exact hc''
    have hpred : ((lookupCol (buildColMap c.Columns) col.ID).isNone : Bool) = true := by
      rw [lookup_buildColMap, Option.isNone_iff_eq_none, lastWithId_eq_none]
      exact hnotin
    have hfil : (col.ID, c'') ∈ (buildColMap s.Columns).filter
        (fun p => (lookupCol (buildColMap c.Columns) p.1).isNone) :=
      List.mem_filter.mpr ⟨hpair, hpred⟩
    refine List.mem_map.mpr ⟨c'', List.mem_map.mpr ⟨(col.ID, c''), hfil, rfl⟩, ?_⟩
    exact (mem_buildColMap _ (col.ID, c'') hpair).2.symm

/-- A server snapshot whose column list holds two columns sharing id c. -/
def dupServer : KanbanData :=
  { Columns := [sampleColumn "c" "A", sampleColumn "c" "B"], Tasks := [],
    UnassignedTasks := [], UnassignedCollapsed := false }

/-- C6 counterexample: the server holds two columns with the same id c and
the client none; the claim would put both server columns in the result,
but the merge iterates the server-column map, which retains only the last
occurrence: column (c, "A") is lost. -/
theorem duplicate_server_columns_collapsed :
    sampleColumn "c" "A" ∈ dupServer.Columns ∧
      "c" ∉ emptySnapshot.Columns.map Column.ID ∧
      sampleColumn "c" "A" ∉ (Handlers.mergeKanbanData dupServer emptySnapshot).Columns ∧
      (Handlers.mergeKanbanData dupServer emptySnapshot).Columns =
        [sampleColumn "c" "B"] := by
  decide

/-! ## C10: the two merge implementations agree -/

namespace MainPkg

set_option linter.unusedVariables false in
/-- mergeKanbanData of package main (src/handlers.go, lines 317-440). It
differs textually from the handlers copy in dead code and style only: its
id-recording loops over the legacy lists clear the loop copy's columnId
before reading the id (a no-op on the recorded id), the client columns
are appended one by one in a loop rather than with a single variadic
append, and allServerTaskIDs is populated but never read, exactly as in
the source. -/
def mergeKanbanData (serverData clientData : KanbanData) : KanbanData :=
  let serverColumns := buildColMap serverData.Columns
  let clientColumns := buildColMap clientData.Columns
  let allServerTaskIDs : List String :=
    serverData.Tasks.map Task.ID ++
      (if serverData.UnassignedTasks.length > 0 then
        serverData.UnassignedTasks.map (fun t => ({ t with ColumnID := none } : Task).ID)
      else [])
  let allClientTaskIDs : List String :=
    clientData.Tasks.map Task.ID ++
      (if clientData.UnassignedTasks.length > 0 then
        clientData.UnassignedTasks.map (fun t => ({ t with ColumnID := none } : Task).ID)
      else [])
  let resultColumns :=
    (clientData.Columns.foldl (fun acc col => acc ++ [col]) []) ++
      ((serverColumns.filter (fun p => (lookupCol clientColumns p.1).isNone)).map
        Prod.snd)
  let resultTasks :=
    clientData.Tasks.map Handlers.normEmptyColumnID ++
      clientData.UnassignedTasks.map Handlers.forceUnassigned ++
      ((serverData.Tasks.filter
          (fun t => decide (t.ID ∉ allClientTaskIDs))).map Handlers.normEmptyColumnID) ++
      ((serverData.UnassignedTasks.filter
          (fun t => decide (t.ID ∉ allClientTaskIDs))).map Handlers.forceUnassigned)
  { Columns := resultColumns
    Tasks := resultTasks.map Handlers.finalNormTask
    UnassignedTasks := []
    UnassignedCollapsed := clientData.UnassignedCollapsed }

end MainPkg

/-- Appending elements one by one in a left fold is appending the list. -/
theorem foldl_append_singleton (l acc : List Column) :
    l.foldl (fun a col => a ++ [col]) acc = acc ++ l := by
  induction l generalizing acc with
  | nil => simp
  | cons x xs ih => simp [ih]

/-- C10 (confirmed): the merge of package main and the merge of package
handlers are extensionally equal (under the same enumeration order of the
server-column map). -/
theorem mergeKanbanData_copies_agree (s c : KanbanData) :
    MainPkg.mergeKanbanData s c = Handlers.mergeKanbanData s c := by
  simp only [MainPkg.mergeKanbanData, Handlers.mergeKanbanData, Handlers.mergedColumns,
    Handlers.mergedTasks, Handlers.allClientTaskIDs, foldl_append_singleton,
    List.nil_append]

/-! ## The connection hub (package services, src/unnamed/part_004; the
identical package-main copy is in src/unnamed/part_002) -/

namespace Services

/-- WebSocketMessage: type tag, payload (`any` in Go, hence a type
parameter), and the user field that carries the excluded identity across
the hub's broadcast channel. -/
structure WebSocketMessage (α : Type) where
  type : String
  data : α
  user : String
deriving DecidableEq, Repr

/-- A connected client as the hub sees it: the connection (a number
standing for the distinct socket pointer), the bounded outbound queue
(queued messages plus the buffered channel's capacity), and the email
identity. -/
structure Client (α : Type) where
  Conn : Nat
  Send : List (WebSocketMessage α)
  SendCap : Nat
  Email : String
deriving DecidableEq, Repr

/-- The broadcast case of Hub.Run (src/unnamed/part_004, lines 1016-1050):
for each live client, skip it when the exclusion identity is non-empty
and equals the client's email; otherwise offer the message to its
outbound queue — the non-blocking send succeeds when the buffered channel
has room, and otherwise the queue is closed and the client is deleted
from the live set. Returns the surviving live set (in order) and the
removed clients. -/
def runBroadcast (wsMessage : WebSocketMessage α) :
    List (Client α) → List (Client α) × List (Client α)
  | [] => ([], [])
  | cl :: rest =>
    let r := runBroadcast wsMessage rest
    if wsMessage.user ≠ "" ∧ cl.Email = wsMessage.user then
      (cl :: r.1, r.2)
    else if cl.Send.length < cl.SendCap then
      ({ cl with Send := cl.Send ++ [wsMessage] } :: r.1, r.2)
    else
      (r.1, cl :: r.2)

/-- Hub.Broadcast (src/unnamed/part_004, lines 990-1001) followed by the
hub loop draining the channel: Broadcast stamps the message's user field
with excludeEmail and hands it to the loop, which reads the exclusion
back out of the decoded message. -/
def Broadcast (clients : List (Client α)) (message : WebSocketMessage α)
    (excludeEmail : String) : List (Client α) × List (Client α) :=
  runBroadcast { message with user := excludeEmail } clients

/-- One broadcast step in which no queue is full delivers the stamped
message to every non-excluded client and drops no one. -/
theorem runBroadcast_no_full (m : WebSocketMessage α) (clients : List (Client α))
    (hroom : ∀ cl ∈ clients, cl.Send.length < cl.SendCap) :
    runBroadcast m clients =
      (clients.map fun cl =>
        if m.user ≠ "" ∧ cl.Email = m.user then cl
        else { cl with Send := cl.Send ++ [m] },
      []) := by
  induction clients with
  | nil => rfl
  | cons cl rest ih =>
    have hcl := hroom cl (List.mem_cons_self _ _)
    have hrest := ih fun x hx => hroom x (List.mem_cons_of_mem _ hx)
    by_cases hskip : m.user ≠ "" ∧ cl.Email = m.user
    · simp [runBroadcast, hskip, hrest]
    · simp [runBroadcast, hskip, hcl, hrest]

/-- Every client surviving a broadcast step originates from the input
live set (same connection). -/
theorem mem_runBroadcast_live_conn (m : WebSocketMessage α)
    (clients : List (Client α)) (x : Client α)
    (hx : x ∈ (runBroadcast m clients).1) : ∃ o ∈ clients, x.Conn = o.Conn := by
  induction clients with
  | nil => simp [runBroadcast] at hx
  | cons cl rest ih =>
    by_cases hskip : m.user ≠ "" ∧ cl.Email = m.user
    · simp only [runBroadcast, if_pos hskip] at hx
      rcases List.mem_cons.mp hx with h | h
      · exact ⟨cl, List.mem_cons_self _ _, by rw [h]⟩
      · rcases ih h with ⟨o, ho, he⟩
        exact ⟨o, List.mem_cons_of_mem _ ho, he⟩
    · by_cases hr : cl.Send.length < cl.SendCap
      · simp only [runBroadcast, if_neg hskip, if_pos hr] at hx
        rcases List.mem_cons.mp hx with h | h
        · exact ⟨cl, List.mem_cons_self _ _, by rw [h]⟩
        · rcases ih h with ⟨o, ho, he⟩
          exact ⟨o, List.mem_cons_of_mem _ ho, he⟩
      · simp only [runBroadcast, if_neg hskip, if_neg hr] at hx
        rcases ih hx with ⟨o, ho, he⟩
        exact ⟨o, List.mem_cons_of_mem _ ho, he⟩

/-- A full, non-excluded client lands in the removed list. -/
theorem runBroadcast_drops (m : WebSocketMessage α) (clients : List (Client α))
    (cl : Client α) (hmem : cl ∈ clients) (hfull : cl.SendCap ≤ cl.Send.length)
    (hexcl : ¬(m.user ≠ "" ∧ cl.Email = m.user)) :
    cl ∈ (runBroadcast m clients).2 := by
  induction clients with
  | nil => simp at hmem
  | cons hd rest ih =>
    rcases List.mem_cons.mp hmem with h | h
    · subst h
      have hr : ¬cl.Send.length < cl.SendCap := not_lt.mpr hfull
      simp [runBroadcast, hexcl, hr]
    · by_cases hskip : m.user ≠ "" ∧ hd.Email = m.user
      · simp only [runBroadcast, if_pos hskip]
        exact ih h
      · by_cases hr : hd.Send.length < hd.SendCap
        · simp only [runBroadcast, if_neg hskip, if_pos hr]
          exact ih h
        · simp only [runBroadcast, if_neg hskip, if_neg hr]
          exact List.mem_cons_of_mem _ (ih h)

/-- Under distinct connections, no survivor of a broadcast step carries
the connection of a full, non-excluded client. -/
theorem runBroadcast_live_conn_ne (m : WebSocketMessage α)
    (clients : List (Client α)) (cl : Client α)
    (hnodup : (clients.map Client.Conn).Nodup) (hmem : cl ∈ clients)
    (hfull : cl.SendCap ≤ cl.Send.length)
    (hexcl : ¬(m.user ≠ "" ∧ cl.Email = m.user)) :
    ∀ x ∈ (runBroadcast m clients).1, x.Conn ≠ cl.Conn := by
  induction clients with
  | nil => simp at hmem
  | cons hd rest ih =>
    simp only [List.map_cons, List.nodup_cons] at hnodup
    rcases List.mem_cons.mp hmem with h | h
    · subst h
      have hr : ¬cl.Send.length < cl.SendCap := not_lt.mpr hfull
      simp only [runBroadcast, if_neg hexcl, if_neg hr]
      intro x hx
      rcases mem_runBroadcast_live_conn m rest x hx with ⟨o, ho, he⟩
      rw [he]
      intro hoc
      exact hnodup.1 (List.mem_map.mpr ⟨o, ho, hoc⟩)
    · have hne : hd.Conn ≠ cl.Conn := by
        intro he
        exact hnodup.1 (List.mem_map.mpr ⟨cl, h, he.symm⟩)
      intro x hx
      by_cases hskip : m.user ≠ "" ∧ hd.Email = m.user
      · simp only [runBroadcast, if_pos hskip] at hx
        rcases List.mem_cons.mp hx with hh | hh
        · rw [hh]; exact hne
        · exact ih hnodup.2 h x hh
      · by_cases hr : hd.Send.length < hd.SendCap
        · simp only [runBroadcast, if_neg hskip, if_pos hr] at hx
          rcases List.mem_cons.mp hx with hh | hh
          · rw [hh]; exact hne
          · exact ih hnodup.2 h x hh
        · simp only [runBroadcast, if_neg hskip, if_neg hr] at hx
          exact ih hnodup.2 h x hx

/-- A non-excluded client with room in its queue survives with the
message appended. -/
theorem runBroadcast_delivers_mem (m : WebSocketMessage α)
    (clients : List (Client α)) (other : Client α) (hmem : other ∈ clients)
    (hr : other.Send.length < other.SendCap)
    (hexcl : ¬(m.user ≠ "" ∧ other.Email = m.user)) :
    { other with Send := other.Send ++ [m] } ∈ (runBroadcast m clients).1 := by
  induction clients with
  | nil => simp at hmem
  | cons hd rest ih =>
    rcases List.mem_cons.mp hmem with h | h
    · subst h
      simp [runBroadcast, hexcl, hr]
    · by_cases hskip : m.user ≠ "" ∧ hd.Email = m.user
      · simp only [runBroadcast, if_pos hskip]
        exact List.mem_cons_of_mem _ (ih h)
      · by_cases hhd : hd.Send.length < hd.SendCap
        · simp only [runBroadcast, if_neg hskip, if_pos hhd]
          exact List.mem_cons_of_mem _ (ih h)
        · simp only [runBroadcast, if_neg hskip, if_neg hhd]
          exact ih h

end Services

/-! ## C7: broadcast delivery -/

/-- C7 (confirmed): when no registered session's outbound queue is full,
processing Broadcast(m, e) enqueues the stamped message to every session
whose email differs from e — and to every session when e is empty — and
removes no session from the live set. Each session is changed exactly by
appending the message, so delivery goes to all of A, B, C for e = "" and
exactly to the sessions other than the excluded identity otherwise. -/
theorem broadcast_delivers_to_non_excluded {α : Type}
    (clients : List (Services.Client α)) (m : Services.WebSocketMessage α)
    (e : String) (hroom : ∀ cl ∈ clients, cl.Send.length < cl.SendCap) :
    Services.Broadcast clients m e =
      (clients.map fun cl =>
        if e = "" ∨ cl.Email ≠ e then
          { cl with Send := cl.Send ++ [{ m with user := e }] }
        else cl,
      []) := by
  rw [Services.Broadcast, Services.runBroadcast_no_full _ _ hroom]
  simp only [Prod.mk.injEq, and_true]
  refine List.map_congr_left fun cl _ => ?_
  by_cases hskip : e ≠ "" ∧ cl.Email = e
  · have hrhs : ¬(e = "" ∨ cl.Email ≠ e) := by
      push_neg
      exact ⟨hskip.1, hskip.2⟩
    simp only [if_pos hskip, if_neg hrhs]
  · have hrhs : e = "" ∨ cl.Email ≠ e := by
      rcases not_and_or.mp hskip with h | h
      · exact Or.inl (not_not.mp h)
      · exact Or.inr h
    simp only [if_neg hskip, if_pos hrhs]

/-- Session A of the broadcast scenarios. -/
def clientA : Services.Client String :=
  { Conn := 1, Send := [], SendCap := 256, Email := "a@x" }

/-- Session B of the broadcast scenarios. -/
def clientB : Services.Client String :=
  { Conn := 2, Send := [], SendCap := 256, Email := "b@x" }

/-- Session C of the broadcast scenarios. -/
def clientC : Services.Client String :=
  { Conn := 3, Send := [], SendCap := 256, Email := "c@x" }

/-- A broadcast message with an opaque payload. -/
def msgHello : Services.WebSocketMessage String :=
  { type := "sync", data := "payload", user := "" }

/-- C7 witness: with sessions A, B, C registered, Broadcast(msg, "")
delivers to all three; Broadcast(msg, identityOfA) delivers to B and C
only, leaving A untouched. -/
theorem broadcast_delivers_witness :
    Services.Broadcast [clientA, clientB, clientC] msgHello "" =
      ([{ clientA with Send := [{ msgHello with user := "" }] },
        { clientB with Send := [{ msgHello with user := "" }] },
        { clientC with Send := [{ msgHello with user := "" }] }], []) ∧
      Services.Broadcast [clientA, clientB, clientC] msgHello "a@x" =
        ([clientA,
          { clientB with Send := [{ msgHello with user := "a@x" }] },
          { clientC with Send := [{ msgHello with user := "a@x" }] }], []) :=
  ⟨(broadcast_delivers_to_non_excluded [clientA, clientB, clientC] msgHello ""
      (by decide)).trans (by decide),
    (broadcast_delivers_to_non_excluded [clientA, clientB, clientC] msgHello "a@x"
      (by decide)).trans (by decide)⟩

/-! ## C8: full queues drop the session, others still receive -/

/-- C8 (confirmed): if during one broadcast some live session's bounded
outbound queue is full (and the session is not excluded), that session is
removed from the live set — its queue is closed and no survivor carries
its connection — while every other non-excluded session with room still
receives the message; the step is a total function, so the hub neither
panics nor blocks. -/
theorem broadcast_drops_full_queue {α : Type}
    (clients : List (Services.Client α)) (m : Services.WebSocketMessage α)
    (e : String) (cl : Services.Client α)
    (hnodup : (clients.map Services.Client.Conn).Nodup) (hmem : cl ∈ clients)
    (hfull : cl.SendCap ≤ cl.Send.length) (hexcl : e = "" ∨ cl.Email ≠ e) :
    (∀ x ∈ (Services.Broadcast clients m e).1, x.Conn ≠ cl.Conn) ∧
      cl ∈ (Services.Broadcast clients m e).2 ∧
      (∀ other ∈ clients, other.Send.length < other.SendCap →
        (e = "" ∨ other.Email ≠ e) →
        { other with Send := other.Send ++ [{ m with user := e }] } ∈
          (Services.Broadcast clients m e).1) := by
  have hexcl' : ¬(({ m with user := e } : Services.WebSocketMessage α).user ≠ "" ∧
      cl.Email = ({ m with user := e } : Services.WebSocketMessage α).user) := by
    intro h
    rcases hexcl with h0 | h0
    · exact h.1 h0
    · exact h0 h.2
  refine ⟨?_, ?_, ?_⟩
  · exact Services.runBroadcast_live_conn_ne _ clients cl hnodup hmem hfull hexcl'
  · exact Services.runBroadcast_drops _ clients cl hmem hfull hexcl'
  · intro other hother hr hoexcl
    have hoexcl' : ¬(({ m with user := e } : Services.WebSocketMessage α).user ≠ "" ∧
        other.Email = ({ m with user := e } : Services.WebSocketMessage α).user) := by
      intro h
      rcases hoexcl with h0 | h0
      · exact h.1 h0
      · exact h0 h.2
    exact Services.runBroadcast_delivers_mem _ clients other hother hr hoexcl'

/-- A session whose outbound queue is filled to capacity. -/
def clientFull : Services.Client String :=
  { Conn := 4, Send := [{ type := "sync", data := "old", user := "" }], SendCap := 1,
    Email := "d@x" }

/-- C8 witness: broadcasting to A, B and a session with a full queue
drops the full session from the live set and still delivers to A and
B. -/
theorem broadcast_drops_full_queue_witness :
    (∀ x ∈ (Services.Broadcast [clientA, clientB, clientFull] msgHello "").1,
        x.Conn ≠ clientFull.Conn) ∧
      clientFull ∈ (Services.Broadcast [clientA, clientB, clientFull] msgHello "").2 ∧
      (∀ other ∈ [clientA, clientB, clientFull],
        other.Send.length < other.SendCap → ("" = "" ∨ other.Email ≠ "") →
        { other with Send := other.Send ++ [{ msgHello with user := "" }] } ∈
          (Services.Broadcast [clientA, clientB, clientFull] msgHello "").1) :=
  broadcast_drops_full_queue [clientA, clientB, clientFull] msgHello "" clientFull
    (by decide) (by decide) (by decide) (by decide)

/-! ## C9: a storage failure after the merge is never broadcast -/

namespace Handlers

/-- An HTTP response of the data endpoints: either http.Error with a
status code and message, or a success JSON body. -/
inductive HttpResponse (α : Type) where
  | error (code : Nat) (msg : String)
  | ok (body : α)
deriving DecidableEq, Repr

/-- SyncData (src/handlers/data.go, lines 52-110; the package-main copy in
src/handlers.go, lines 196-254, has the same post-authentication control
flow). The request context is abstracted: the authenticated email (none
when authentication failed), the decoded request body (none when decoding
failed), GetUserData as a fallible read, and SaveUserData returning an
error or nothing. The outcome pairs the HTTP response with the list of
(message, excludeEmail) calls handed to the hub's Broadcast. -/
def SyncData (email : Option String) (body : Option KanbanData)
    (getUserData : String → Except String KanbanData)
    (saveUserData : String → KanbanData → Option String) :
    HttpResponse KanbanData × List (Services.WebSocketMessage KanbanData × String) :=
  match email with
  | none => (.error 401 "user not found", [])
  | some email =>
    match body with
    | none => (.error 400 "Invalid request format", [])
    | some clientData =>
      match getUserData email with
      | .error _ => (.error 500 "Server error", [])
      | .ok serverData =>
        let mergedData := mergeKanbanData serverData clientData
        match saveUserData email mergedData with
        | some _ => (.error 500 "Failed to save data", [])
        | none =>
          (.ok mergedData,
            [({ type := "sync", data := mergedData, user := "" }, "")])

end Handlers

/-- C9 (confirmed): if saving the computed merge fails, SyncData answers
HTTP 500 ("Failed to save data") and hands nothing to the hub; and
conversely any message handed to the hub comes from a request whose save
succeeded, is the full-sync broadcast of the saved merge with no
exclusion, and accompanies the success response. -/
theorem syncData_save_failure_not_broadcast
    (getUserData : String → Except String KanbanData)
    (saveUserData : String → KanbanData → Option String)
    (emailOpt : Option String) (bodyOpt : Option KanbanData) :
    (∀ email clientData serverData err,
        emailOpt = some email → bodyOpt = some clientData →
        getUserData email = Except.ok serverData →
        saveUserData email (Handlers.mergeKanbanData serverData clientData) = some err →
        Handlers.SyncData emailOpt bodyOpt getUserData saveUserData =
          (Handlers.HttpResponse.error 500 "Failed to save data", [])) ∧
      (∀ msg exc,
        (msg, exc) ∈ (Handlers.SyncData emailOpt bodyOpt getUserData saveUserData).2 →
        ∃ email clientData serverData,
          emailOpt = some email ∧ bodyOpt = some clientData ∧
          getUserData email = Except.ok serverData ∧
          saveUserData email (Handlers.mergeKanbanData serverData clientData) = none ∧
          msg = { type := "sync",
                  data := Handlers.mergeKanbanData serverData clientData,
                  user := "" } ∧
          exc = "" ∧
          Handlers.SyncData emailOpt bodyOpt getUserData saveUserData =
            (Handlers.HttpResponse.ok (Handlers.mergeKanbanData serverData clientData),
              [(msg, exc)])) := by
  constructor
  · intro email clientData serverData err he hb hg hs
    subst he
    subst hb
    simp [Handlers.SyncData, hg, hs]
  · intro msg exc hmem
    cases emailOpt with
    | none => simp [Handlers.SyncData] at hmem
    | some email =>
      cases bodyOpt with
      | none => simp [Handlers.SyncData] at hmem
      | some clientData =>
        cases hg : getUserData email with
        | error er => simp [Handlers.SyncData, hg] at hmem
        | ok serverData =>
          cases hs : saveUserData email (Handlers.mergeKanbanData serverData clientData) with
          | some err => simp [Handlers.SyncData, hg, hs] at hmem
          | none =>
            simp only [Handlers.SyncData, hg, hs, List.mem_singleton, Prod.mk.injEq] at hmem
            refine ⟨email, clientData, serverData, rfl, rfl, hg, hs, hmem.1, hmem.2, ?_⟩
            simp [Handlers.SyncData, hg, hs, hmem.1, hmem.2]

/-- A storage collaborator whose read succeeds with a fixed snapshot. -/
def okGetUserData : String → Except String KanbanData :=
  fun _ => Except.ok serverT1

/-- A storage collaborator whose save always fails. -/
def failingSaveUserData : String → KanbanData → Option String :=
  fun _ _ => some "disk error"

/-- C9 witness: a concrete request whose save fails is answered with 500
and broadcasts nothing. -/
theorem syncData_save_failure_witness :
    Handlers.SyncData (some "u@x") (some clientT1Empty) okGetUserData
        failingSaveUserData =
      (Handlers.HttpResponse.error 500 "Failed to save data", []) :=
  (syncData_save_failure_not_broadcast okGetUserData failingSaveUserData
      (some "u@x") (some clientT1Empty)).1
    "u@x" clientT1Empty serverT1 "disk error" rfl rfl rfl rfl

end TodoApp
